import Mathlib

/-
Verification of the Delhi Metro route finder (src/delhi_metro_project.py)
against its specification.  The Python core is shallowly embedded below:
pandas tables become lists of rows, the networkx Graph becomes a list of
nodes plus an association list keyed by unordered station pairs, floats
become rationals, and code that can raise returns Option.
-/

namespace DelhiMetro

/-! ### Configuration constants (lines 128-131 of the source) -/

def INTERCHANGE_TIME : ℚ := 1

def DWELL_TIME : ℚ := 1/5

def AVG_SPEED_KMH : ℚ := 80

def DEFAULT_EDGE_TIME : ℚ := 2

/-! ### Reference data tables

A station row models one row of the station_line_mapping dataframe after
column normalization; `coords` is `some (lat, lon)` exactly when the row is
present with float-convertible latitude and longitude cells.  An edge row
models one row of the edges dataframe; `tt` is `some q` exactly when
`float(row[travel_time_min])` succeeds with value `q`.  The `has...Col`
flags model presence of the optional columns in the dataframe. -/

structure StationRow where
  station_name : String
  line : Option String
  coords : Option (ℚ × ℚ)
deriving DecidableEq, Repr

structure StationsTable where
  rows : List StationRow
  hasLineCol : Bool
  hasLatLonCols : Bool
deriving DecidableEq, Repr

structure EdgeRow where
  from_station : String
  to_station : String
  line : Option String
  tt : Option ℚ
deriving DecidableEq, Repr

structure EdgesTable where
  rows : List EdgeRow
  hasLineCol : Bool
  hasTimeCol : Bool
deriving DecidableEq, Repr

/-! ### Weight resolution (source lines 134-171) -/

/-- Symmetric row match used by the mask in get_edge_travel_time. -/
def rowMatches (a b : String) (r : EdgeRow) : Bool :=
  decide ((r.from_station = a ∧ r.to_station = b) ∨
          (r.from_station = b ∧ r.to_station = a))

/-- Embedding of get_edge_travel_time: a symmetric search of the edge table;
the first matching row wins (rows.iloc[0]); a found row whose time cell does
not float-convert, or a table without the time column, yields the default. -/
def get_edge_travel_time (tbl : EdgesTable) (a b : String) : Option ℚ :=
  match tbl.rows.find? (rowMatches a b) with
  | none => none
  | some r =>
      if tbl.hasTimeCol then
        match r.tt with
        | some v => some v
        | none => some DEFAULT_EDGE_TIME
      else some DEFAULT_EDGE_TIME

/-- Coordinates of the first station row carrying the given name, available
only when both coordinate columns exist (source lines 159-164). -/
def stationCoords (st : StationsTable) (name : String) : Option (ℚ × ℚ) :=
  if st.hasLatLonCols then
    match st.rows.find? (fun r => r.station_name == name) with
    | some r => r.coords
    | none => none
  else none

/-- Embedding of calculate_travel_time.  The geodesic distance function of
geopy is an external library call, passed in as the parameter `geo`. -/
def calculate_travel_time (st : StationsTable) (tbl : EdgesTable)
    (geo : ℚ × ℚ → ℚ × ℚ → ℚ) (a b : String) : ℚ :=
  match get_edge_travel_time tbl a b with
  | some t => t
  | none =>
      match stationCoords st a, stationCoords st b with
      | some c1, some c2 => geo c1 c2 / AVG_SPEED_KMH * 60
      | some _, none => DEFAULT_EDGE_TIME
      | none, _ => DEFAULT_EDGE_TIME

/-! ### The graph (networkx Graph semantics) -/

structure EdgeAttr where
  weight : ℚ
  line : Option String
deriving DecidableEq, Repr

/-- Key equality of undirected edges: nx.Graph stores one edge per unordered
pair of endpoints. -/
def sameEdgeKey (p q : String × String) : Bool :=
  decide ((p.1 = q.1 ∧ p.2 = q.2) ∨ (p.1 = q.2 ∧ p.2 = q.1))

structure Graph where
  nodes : List String
  edges : List ((String × String) × EdgeAttr)
deriving DecidableEq, Repr

def emptyGraph : Graph := ⟨[], []⟩

def addNode (g : Graph) (v : String) : Graph :=
  if v ∈ g.nodes then g else { g with nodes := g.nodes ++ [v] }

/-- Set the attributes of the undirected edge keyed by `k`, overwriting the
entry of a matching pair when one exists (nx.Graph.add_edge updates the
attribute dict of an existing edge instead of adding a parallel edge). -/
def setEdgeAttr : List ((String × String) × EdgeAttr) → (String × String) →
    EdgeAttr → List ((String × String) × EdgeAttr)
  | [], k, a => [(k, a)]
  | e :: es, k, a =>
      if sameEdgeKey e.1 k then (e.1, a) :: es else e :: setEdgeAttr es k a

def addEdge (g : Graph) (a b : String) (attr : EdgeAttr) : Graph :=
  let g1 := addNode (addNode g a) b
  { g1 with edges := setEdgeAttr g1.edges (a, b) attr }

def lookupEdge (g : Graph) (a b : String) : Option EdgeAttr :=
  (g.edges.find? (fun e => sameEdgeKey e.1 (a, b))).map (fun e => e.2)

/-! ### Graph construction (source lines 179-206) -/

/-- Weight chosen for one edge row: the float-converted travel_time_min cell
when the column exists and conversion succeeds, otherwise the
calculate_travel_time fallback (source lines 193-201). -/
def rowEdgeTime (st : StationsTable) (tbl : EdgesTable)
    (geo : ℚ × ℚ → ℚ × ℚ → ℚ) (r : EdgeRow) : ℚ :=
  match (if tbl.hasTimeCol then r.tt else none) with
  | some v => v
  | none => calculate_travel_time st tbl geo r.from_station r.to_station

/-- Line attribute chosen for one edge row: the row cell when the edges table
has a line column and the cell is usable, else the line of the first station
row named like the source endpoint (source line 204). -/
def rowLineValue (st : StationsTable) (tbl : EdgesTable) (r : EdgeRow) :
    Option String :=
  match (if tbl.hasLineCol then r.line else none) with
  | some l => some l
  | none =>
      if st.hasLineCol then
        (st.rows.find? (fun s => s.station_name == r.from_station)).bind
          (fun s => s.line)
      else none

/-- Embedding of the graph build loop: one node per station row, then one
add_edge call per edge row. -/
def buildGraph (st : StationsTable) (tbl : EdgesTable)
    (geo : ℚ × ℚ → ℚ × ℚ → ℚ) : Graph :=
  let g0 := st.rows.foldl (fun g r => addNode g r.station_name) emptyGraph
  tbl.rows.foldl
    (fun g r => addEdge g r.from_station r.to_station
      ⟨rowEdgeTime st tbl geo r, rowLineValue st tbl r⟩) g0

/-! ### Route computation (source line 221)

The source calls nx.shortest_path over the weight attribute.  The library
routine is embedded by enumerating the simple paths between the endpoints
(bounded depth-first search, fuel = number of nodes, which bounds the length
of any simple path) and selecting a path of minimum total weight; it yields
none exactly where the library raises (endpoint not a node, or no path). -/

def succs (g : Graph) (v : String) : List String :=
  g.edges.filterMap (fun e =>
    if e.1.1 == v then some e.1.2
    else if e.1.2 == v then some e.1.1
    else none)

def pathsAux (g : Graph) (t : String) : ℕ → String → List String → List (List String)
  | 0, v, _ => if v = t then [[v]] else []
  | n + 1, v, vis =>
      if v = t then [[v]]
      else
        ((succs g v).filter (fun w => !(vis.contains w))).flatMap
          (fun w => (pathsAux g t n w (v :: vis)).map (fun p => v :: p))

def simplePaths (g : Graph) (s t : String) : List (List String) :=
  pathsAux g t g.nodes.length s []

def pathWeight (g : Graph) (p : List String) : ℚ :=
  ((p.zip p.tail).map (fun e =>
    match lookupEdge g e.1 e.2 with
    | some attr => attr.weight
    | none => 0)).sum

def minWeightPath (g : Graph) : List (List String) → Option (List String)
  | [] => none
  | p :: ps =>
      some (ps.foldl (fun best q =>
        if pathWeight g q < pathWeight g best then q else best) p)

def shortest_path (g : Graph) (s t : String) : Option (List String) :=
  if s ∈ g.nodes ∧ t ∈ g.nodes then minWeightPath g (simplePaths g s t)
  else none

/-! ### The annotation walk (source lines 222-248) -/

inductive Step where
  | change (station fromLine toLine : String)
  | travel (dest line : String)
deriving DecidableEq, Repr

structure AnnState where
  steps : List Step
  total_time : ℚ
  prev_line : Option String
  last_change_station : Option String
deriving DecidableEq, Repr

def initAnnState : AnnState := ⟨[], 0, none, none⟩

def isChangeStep : Step → Bool
  | .change _ _ _ => true
  | .travel _ _ => false

/-- Number of interchange records among the produced steps. -/
def AnnState.changes (s : AnnState) : ℕ := s.steps.countP isChangeStep

/-- Whitespace characters removed by the Python str.strip method. -/
def isPySpace (c : Char) : Bool :=
  (c = ' ') || (c = '\t') || (c = '\n') || (c = '\r') ||
  (c = '\x0b') || (c = '\x0c')

/-- Embedding of str(raw_line).strip().lower(), written over the character
sequence of the string: drop the surrounding whitespace, then lowercase. -/
def pyNorm (s : String) : String :=
  String.mk ((((s.data.dropWhile isPySpace).reverse.dropWhile
    isPySpace).reverse).map Char.toLower)

/-- Condition of the interchange branch (source line 239): prev_line is
truthy (a non-empty string), differs from the normalized current line, and
the previous recorded interchange did not happen at the current station. -/
def changeCondB (prev lastC : Option String) (current edge_line : String) : Bool :=
  (match prev with
   | none => false
   | some p => decide (p ≠ "") && decide (p ≠ edge_line)) &&
  decide (lastC ≠ some current)

/-- One iteration of the route loop, for the hop current → nxt.  A missing
edge makes the dict lookup G[current][nxt] raise, hence none.  The Python
locals are inlined: raw_line is `attr.line.getD ""` (the falsy-or with the
empty string), edge_line its strip-lowercase normalization, and the
effective edge time falls back to the default on a zero weight (0.0 is
falsy in Python). -/
def annStep (g : Graph) (s : AnnState) (current nxt : String) : Option AnnState :=
  match lookupEdge g current nxt with
  | none => none
  | some attr =>
      if changeCondB s.prev_line s.last_change_station current
          (pyNorm (attr.line.getD "")) then
        some { steps := s.steps ++
                 [Step.change current (s.prev_line.getD "") (attr.line.getD ""),
                  Step.travel nxt
                    (if attr.line.getD "" = "" then "Unknown" else attr.line.getD "")],
               total_time := s.total_time +
                 (if attr.weight = 0 then DEFAULT_EDGE_TIME else attr.weight) +
                 DWELL_TIME + INTERCHANGE_TIME,
               prev_line := some (pyNorm (attr.line.getD "")),
               last_change_station := some current }
      else
        some { steps := s.steps ++
                 [Step.travel nxt
                    (if attr.line.getD "" = "" then "Unknown" else attr.line.getD "")],
               total_time := s.total_time +
                 (if attr.weight = 0 then DEFAULT_EDGE_TIME else attr.weight) +
                 DWELL_TIME,
               prev_line := some (pyNorm (attr.line.getD "")),
               last_change_station := s.last_change_station }

def annFold (g : Graph) (s : AnnState) (pairs : List (String × String)) :
    Option AnnState :=
  pairs.foldlM (fun a p => annStep g a p.1 p.2) s

/-- Embedding of the whole route loop over the consecutive hops of a path. -/
def annotate (g : Graph) (path : List String) : Option AnnState :=
  annFold g initAnnState (path.zip path.tail)

/-- Raw line attribute read for a hop, with the `or` fallback to the empty
string. -/
def rawLineOf (g : Graph) (a b : String) : String :=
  ((lookupEdge g a b).bind (fun attr => attr.line)).getD ""

/-- Effective travel time read for a hop (zero weights fall back to the
default, per the falsy-or in the source). -/
def effTime (g : Graph) (a b : String) : ℚ :=
  match lookupEdge g a b with
  | none => 0
  | some attr => if attr.weight = 0 then DEFAULT_EDGE_TIME else attr.weight

/-- Hop described as (starting station, raw line attribute). -/
def stepInfo (g : Graph) (p : String × String) : String × String :=
  (p.1, rawLineOf g p.1 p.2)

/-- Projection of the walk onto its interchange count: the count recorded by
the loop, as a recursion over the hop descriptions. -/
def changeCountGo (prev lastC : Option String) : List (String × String) → ℕ
  | [] => 0
  | (c, l) :: rest =>
      if changeCondB prev lastC c (pyNorm l) then
        1 + changeCountGo (some (pyNorm l)) (some c) rest
      else changeCountGo (some (pyNorm l)) lastC rest

/-- Route handler around the try block: a failing shortest-path call or a
failing edge lookup in the loop surfaces as the error message shown by the
except branch; no default route is substituted. -/
def noRouteMsg : String := "No route found between selected stations."

def getRoute (g : Graph) (s t : String) : Except String (List String × AnnState) :=
  match shortest_path g s t with
  | none => Except.error noRouteMsg
  | some p =>
      match annotate g p with
      | none => Except.error noRouteMsg
      | some st => Except.ok (p, st)

/-! ### Concrete instances used by witnesses and counterexamples -/

def geo0 : ℚ × ℚ → ℚ × ℚ → ℚ := fun _ _ => 0

/-- Station table of the three-station example of the spec. -/
def stEx : StationsTable :=
  ⟨[⟨"A", some "Red", none⟩, ⟨"B", some "Red", none⟩, ⟨"C", some "Blue", none⟩],
   true, false⟩

/-- Edge table of the three-station example: A-B on Red (5 min), B-C on Blue
(3 min). -/
def tblEx : EdgesTable :=
  ⟨[⟨"A", "B", some "Red", some 5⟩, ⟨"B", "C", some "Blue", some 3⟩],
   true, true⟩

def gEx : Graph := buildGraph stEx tblEx geo0

/-- Modelled from the spec: the repository file src/delhi_metro_project.py
contains no fare computation (it reports route and time only), so the fare
step function is taken verbatim from the spec bracket table, with the
distance clamped to be non-negative before lookup. -/
def fare (d : ℚ) : ℕ :=
  if max d 0 ≤ 2 then 11
  else if max d 0 ≤ 5 then 21
  else if max d 0 ≤ 12 then 32
  else if max d 0 ≤ 21 then 43
  else if max d 0 ≤ 32 then 54
  else 64

/-- Interchange count as the spec sentence of C2 words it: count the
positions whose raw line identifier differs from that of the preceding edge,
suppressing a second interchange at the station of the most recent recorded
one.  Compared against the count the code actually produces. -/
def claimChangeCountGo (prev lastC : Option String) :
    List (String × String) → ℕ
  | [] => 0
  | (c, l) :: rest =>
      match prev with
      | none => claimChangeCountGo (some l) lastC rest
      | some p =>
          if p ≠ l ∧ lastC ≠ some c then
            1 + claimChangeCountGo (some l) (some c) rest
          else claimChangeCountGo (some l) lastC rest

def claimChangeCount (hops : List (String × String)) : ℕ :=
  claimChangeCountGo none none hops

/-- Annotation state reached by the walk on the three-station example; the
total time is kept in the unsimplified shape the walk builds (it equals
47/5, that is 9.4). -/
def exSt : AnnState :=
  ⟨[Step.travel "B" "Red", Step.change "B" "red" "Blue", Step.travel "C" "Blue"],
   0 + 5 + 1/5 + 3 + 1/5 + 1, some "blue", some "B"⟩

/-- Graph whose first edge carries an empty line identifier. -/
def gC2 : Graph :=
  ⟨["A", "B", "C"],
   [(("A", "B"), ⟨5, some ""⟩), (("B", "C"), ⟨3, some "red"⟩)]⟩

def pC2 : List String := ["A", "B", "C"]

/-- Edge table holding two parallel rows for the same station pair on two
different lines. -/
def tblC8 : EdgesTable :=
  ⟨[⟨"A", "B", some "Red", some 5⟩, ⟨"A", "B", some "Blue", some 3⟩],
   true, true⟩

def stC8 : StationsTable :=
  ⟨[⟨"A", some "Red", none⟩, ⟨"B", some "Red", none⟩], true, false⟩

def gC8 : Graph := buildGraph stC8 tblC8 geo0

def edgesBetween (g : Graph) (a b : String) :
    List ((String × String) × EdgeAttr) :=
  g.edges.filter (fun e => sameEdgeKey e.1 (a, b))

/-- Station table with coordinates, for the weight-resolution witness. -/
def stW : StationsTable :=
  ⟨[⟨"E", none, some (1, 2)⟩, ⟨"F", none, some (3, 4)⟩], false, true⟩

/-- Edge table for the weight-resolution witness: one row with an explicit
numeric time, one row whose time cell does not convert. -/
def tblW : EdgesTable :=
  ⟨[⟨"A", "B", some "red", some 7⟩, ⟨"C", "D", none, none⟩], false, true⟩

def geoW : ℚ × ℚ → ℚ × ℚ → ℚ := fun _ _ => 160

def rW1 : EdgeRow := ⟨"A", "B", some "red", some 7⟩

def rW2 : EdgeRow := ⟨"C", "D", none, none⟩

def rW3 : EdgeRow := ⟨"E", "F", none, none⟩

def rW4 : EdgeRow := ⟨"X", "Y", none, none⟩

/-- Graph whose two consecutive edges carry lines differing only in case and
surrounding whitespace. -/
def gC9 : Graph :=
  ⟨["A", "B", "C"],
   [(("A", "B"), ⟨5, some "Red"⟩), (("B", "C"), ⟨3, some " red "⟩)]⟩

/-- Walk state after the first hop of gC9 (total time 26/5, kept in the
shape the walk builds). -/
def s9 : AnnState := ⟨[Step.travel "B" "Red"], 0 + 5 + 1/5, some "red", none⟩

/-- Walk state after the second hop of gC9 (total time 42/5). -/
def st9 : AnnState :=
  ⟨[Step.travel "B" "Red", Step.travel "C" " red "],
   0 + 5 + 1/5 + 3 + 1/5, some "red", none⟩

/-- Walk state after the first hop of gC2, whose line identifier is empty
(total time 26/5). -/
def s10 : AnnState := ⟨[Step.travel "B" "Unknown"], 0 + 5 + 1/5, some "", none⟩

/-- Walk state after the second hop of gC2 (total time 42/5). -/
def st10 : AnnState :=
  ⟨[Step.travel "B" "Unknown", Step.travel "C" "red"],
   0 + 5 + 1/5 + 3 + 1/5, some "red", none⟩

lemma fare_mono (d1 d2 : ℚ) (h : d1 ≤ d2) : fare d1 ≤ fare d2 := by
  have hm : max d1 0 ≤ max d2 0 := max_le_max h le_rfl
  unfold fare
  split_ifs <;> first | (norm_num; done) | (exfalso; linarith)

/-! ### C1: weight resolution priority order -/

/-- C1: an edge row with a usable explicit travel_time_min gets exactly that
value as its weight, regardless of coordinates; a row without one gets its
weight from the three-tier fallback in strict priority order — the symmetric
edge-table search first, then (both endpoints having coordinates) the
great-circle distance converted to minutes via the average-speed constant,
and only otherwise the fixed default constant. -/
theorem c1_weight_resolution (st : StationsTable) (tbl : EdgesTable)
    (geo : ℚ × ℚ → ℚ × ℚ → ℚ) (r : EdgeRow) :
    (∀ v : ℚ, tbl.hasTimeCol = true → r.tt = some v →
        rowEdgeTime st tbl geo r = v) ∧
    ((tbl.hasTimeCol = true → r.tt = none) →
      ((∀ t : ℚ, get_edge_travel_time tbl r.from_station r.to_station = some t →
          rowEdgeTime st tbl geo r = t) ∧
       (get_edge_travel_time tbl r.from_station r.to_station = none →
         ((∀ c1 c2 : ℚ × ℚ, stationCoords st r.from_station = some c1 →
             stationCoords st r.to_station = some c2 →
             rowEdgeTime st tbl geo r = geo c1 c2 / AVG_SPEED_KMH * 60) ∧
          ((stationCoords st r.from_station = none ∨
            stationCoords st r.to_station = none) →
            rowEdgeTime st tbl geo r = DEFAULT_EDGE_TIME))))) := by
  constructor
  · intro v hcol htt
    simp [rowEdgeTime, hcol, htt]
  · intro hnone
    have hn : (if tbl.hasTimeCol then r.tt else none) = none := by
      match htc : tbl.hasTimeCol with
      | false => simp
      | true => simp [hnone htc]
    have hrw : rowEdgeTime st tbl geo r =
        calculate_travel_time st tbl geo r.from_station r.to_station := by
      unfold rowEdgeTime
      rw [hn]
    refine ⟨?_, ?_⟩
    · intro t hget
      rw [hrw]
      unfold calculate_travel_time
      rw [hget]
    · intro hget
      refine ⟨?_, ?_⟩
      · intro c1 c2 h1 h2
        rw [hrw]
        unfold calculate_travel_time
        rw [hget, h1, h2]
      · intro hcoords
        rw [hrw]
        unfold calculate_travel_time
        rw [hget]
        rcases hcoords with h1 | h2
        · rw [h1]
        · cases hA : stationCoords st r.from_station <;> simp [hA, h2]

/-- Witness for C1: the explicit-time row rW1 gets its own value 7, the
unparseable row rW2 resolves through the table search to the default, the
off-table pair rW3 with coordinates resolves through the geodesic tier, and
the coordinate-free pair rW4 gets the default constant. -/
theorem c1_weight_resolution_witness :
    rowEdgeTime stW tblW geoW rW1 = 7 ∧
    rowEdgeTime stW tblW geoW rW2 = DEFAULT_EDGE_TIME ∧
    rowEdgeTime stW tblW geoW rW3 = geoW (1, 2) (3, 4) / AVG_SPEED_KMH * 60 ∧
    rowEdgeTime stW tblW geoW rW4 = DEFAULT_EDGE_TIME :=
  ⟨(c1_weight_resolution stW tblW geoW rW1).1 7 rfl rfl,
   ((c1_weight_resolution stW tblW geoW rW2).2 (fun _ => rfl)).1
     DEFAULT_EDGE_TIME (by decide),
   ((((c1_weight_resolution stW tblW geoW rW3).2 (fun _ => rfl)).2
     (by decide)).1 (1, 2) (3, 4) (by decide) (by decide)),
   ((((c1_weight_resolution stW tblW geoW rW4).2 (fun _ => rfl)).2
     (by decide)).2 (Or.inl (by decide)))⟩

/-! ### C4: fare step function -/

/-- C4: the fare is a monotonically non-decreasing step function of the
distance with the bracket table [2,5,12,21,32] to [11,21,32,43,54] and 64
beyond, distance clamped to be non-negative; in particular fare 0 = 11,
fare 2 = 11, fare 2.01 = 21 and fare 100 = 64. -/
theorem c4_fare_table (d1 d2 : ℚ) (h : d1 ≤ d2) :
    fare d1 ≤ fare d2 ∧ fare 0 = 11 ∧ fare 2 = 11 ∧
    fare (201/100) = 21 ∧ fare 100 = 64 :=
  ⟨fare_mono d1 d2 h, by norm_num [fare], by norm_num [fare],
   by norm_num [fare], by norm_num [fare]⟩

/-- Witness for C4 at the concrete pair 1 ≤ 3. -/
theorem c4_fare_table_witness :
    fare 1 ≤ fare 3 ∧ fare 0 = 11 ∧ fare 2 = 11 ∧
    fare (201/100) = 21 ∧ fare 100 = 64 :=
  c4_fare_table 1 3 (by norm_num)

/-! ### C8: nx.Graph keeps one edge per station pair -/

lemma sameEdgeKey_iff (p q : String × String) :
    sameEdgeKey p q = true ↔
      ((p.1 = q.1 ∧ p.2 = q.2) ∨ (p.1 = q.2 ∧ p.2 = q.1)) := by
  simp [sameEdgeKey]

lemma sameEdgeKey_trans_right : ∀ p q k : String × String,
    sameEdgeKey p k = true → sameEdgeKey q k = true →
    sameEdgeKey p q = true := by
  rintro ⟨p1, p2⟩ ⟨q1, q2⟩ ⟨k1, k2⟩ hp hq
  rw [sameEdgeKey_iff] at hp hq ⊢
  simp only at hp hq ⊢
  rcases hp with ⟨rfl, rfl⟩ | ⟨rfl, rfl⟩ <;>
    rcases hq with ⟨h3, h4⟩ | ⟨h3, h4⟩ <;> simp_all

lemma filter_same_key_len (k : String × String) :
    ∀ es : List ((String × String) × EdgeAttr),
      es.Pairwise (fun e1 e2 => sameEdgeKey e1.1 e2.1 = false) →
      (es.filter (fun e => sameEdgeKey e.1 k)).length ≤ 1 := by
  intro es
  induction es with
  | nil => simp
  | cons e es ih =>
    intro hp
    rw [List.pairwise_cons] at hp
    obtain ⟨he, hes⟩ := hp
    by_cases hk : sameEdgeKey e.1 k = true
    · rw [List.filter_cons, if_pos hk]
      have hnil : es.filter (fun e2 => sameEdgeKey e2.1 k) = [] := by
        rw [List.filter_eq_nil_iff]
        intro e2 he2 hcon
        have := sameEdgeKey_trans_right e.1 e2.1 k hk hcon
        rw [he e2 he2] at this
        exact Bool.false_ne_true this
      rw [hnil]
      exact Nat.le_refl 1
    · rw [List.filter_cons, if_neg hk]
      exact ih hes

lemma mem_setEdgeAttr : ∀ (es : List ((String × String) × EdgeAttr))
    (k : String × String) (a : EdgeAttr) (e2 : (String × String) × EdgeAttr),
    e2 ∈ setEdgeAttr es k a →
    (∃ e1 ∈ es, e2.1 = e1.1) ∨ e2 = (k, a) := by
  intro es
  induction es with
  | nil =>
    intro k a e2 h
    right
    simpa [setEdgeAttr] using h
  | cons e es ih =>
    intro k a e2 h
    unfold setEdgeAttr at h
    split at h
    · rcases List.mem_cons.mp h with rfl | hmem
      · exact Or.inl ⟨e, List.mem_cons_self e es, rfl⟩
      · exact Or.inl ⟨e2, List.mem_cons_of_mem e hmem, rfl⟩
    · rcases List.mem_cons.mp h with rfl | hmem
      · exact Or.inl ⟨e2, List.mem_cons_self e2 es, rfl⟩
      · rcases ih k a e2 hmem with ⟨e1, h1, h2⟩ | h1
        · exact Or.inl ⟨e1, List.mem_cons_of_mem e h1, h2⟩
        · exact Or.inr h1

lemma setEdgeAttr_pairwise : ∀ (es : List ((String × String) × EdgeAttr))
    (k : String × String) (a : EdgeAttr),
    es.Pairwise (fun e1 e2 => sameEdgeKey e1.1 e2.1 = false) →
    (setEdgeAttr es k a).Pairwise (fun e1 e2 => sameEdgeKey e1.1 e2.1 = false) := by
  intro es
  induction es with
  | nil =>
    intro k a _
    simp [setEdgeAttr]
  | cons e es ih =>
    intro k a h
    rw [List.pairwise_cons] at h
    obtain ⟨he, hes⟩ := h
    unfold setEdgeAttr
    split
    · rw [List.pairwise_cons]
      exact ⟨he, hes⟩
    · next hk =>
      rw [List.pairwise_cons]
      constructor
      · intro e2 h2
        rcases mem_setEdgeAttr es k a e2 h2 with ⟨e1, h1, hkey⟩ | rfl
        · rw [hkey]
          exact he e1 h1
        · simpa using hk
      · exact ih k a hes

lemma addNode_edges (g : Graph) (v : String) : (addNode g v).edges = g.edges := by
  unfold addNode
  split <;> rfl

lemma addEdge_edges (g : Graph) (a b : String) (attr : EdgeAttr) :
    (addEdge g a b attr).edges = setEdgeAttr g.edges (a, b) attr := by
  show setEdgeAttr (addNode (addNode g a) b).edges (a, b) attr = _
  rw [addNode_edges, addNode_edges]

lemma buildGraph_edges_pairwise (st : StationsTable) (tbl : EdgesTable)
    (geo : ℚ × ℚ → ℚ × ℚ → ℚ) :
    (buildGraph st tbl geo).edges.Pairwise
      (fun e1 e2 => sameEdgeKey e1.1 e2.1 = false) := by
  have h0 : ∀ (rows : List StationRow) (g : Graph),
      (rows.foldl (fun g r => addNode g r.station_name) g).edges = g.edges := by
    intro rows
    induction rows with
    | nil => intro g; rfl
    | cons r rows ih => intro g; rw [List.foldl_cons, ih, addNode_edges]
  have h1 : ∀ (rows : List EdgeRow) (g : Graph),
      g.edges.Pairwise (fun e1 e2 => sameEdgeKey e1.1 e2.1 = false) →
      ((rows.foldl
        (fun g r => addEdge g r.from_station r.to_station
          ⟨rowEdgeTime st tbl geo r, rowLineValue st tbl r⟩) g).edges.Pairwise
        (fun e1 e2 => sameEdgeKey e1.1 e2.1 = false)) := by
    intro rows
    induction rows with
    | nil => intro g h; exact h
    | cons r rows ih =>
      intro g h
      rw [List.foldl_cons]
      apply ih
      rw [addEdge_edges]
      exact setEdgeAttr_pairwise g.edges _ _ h
  unfold buildGraph
  apply h1
  rw [h0]
  exact List.Pairwise.nil

/-- C8 counterexample: two edge rows for the pair A-B on lines Red and Blue
produce a single A-B edge in the built graph (nx.Graph merges parallel
edges), carrying only the line of the last processed row. -/
theorem c8_counterexample :
    tblC8.rows.length = 2 ∧
    tblC8.rows.map EdgeRow.line = [some "Red", some "Blue"] ∧
    (edgesBetween gC8 "A" "B").length = 1 ∧
    lookupEdge gC8 "A" "B" = some ⟨3, some "Blue"⟩ := by
  decide

/-- C8 amended: the built graph holds at most one edge per unordered station
pair; edge rows repeating a pair overwrite the earlier attributes instead of
appearing as a distinct parallel edge. -/
theorem c8_single_edge_per_pair (st : StationsTable) (tbl : EdgesTable)
    (geo : ℚ × ℚ → ℚ × ℚ → ℚ) (a b : String) :
    (edgesBetween (buildGraph st tbl geo) a b).length ≤ 1 := by
  unfold edgesBetween
  exact filter_same_key_len (a, b) _ (buildGraph_edges_pairwise st tbl geo)

/-! ### C5, C6, C7: the route computation -/

lemma pathsAux_endpoints (g : Graph) (t : String) :
    ∀ (n : ℕ) (v : String) (vis : List String) (p : List String),
      p ∈ pathsAux g t n v vis → p.head? = some v ∧ p.getLast? = some t := by
  intro n
  induction n with
  | zero =>
    intro v vis p hp
    unfold pathsAux at hp
    split at hp
    · next hv =>
      rw [List.mem_singleton] at hp
      subst hp
      subst hv
      exact ⟨rfl, rfl⟩
    · simp at hp
  | succ n ih =>
    intro v vis p hp
    unfold pathsAux at hp
    split at hp
    · next hv =>
      rw [List.mem_singleton] at hp
      subst hp
      subst hv
      exact ⟨rfl, rfl⟩
    · rw [List.mem_flatMap] at hp
      obtain ⟨w, _, hp⟩ := hp
      rw [List.mem_map] at hp
      obtain ⟨q, hq, rfl⟩ := hp
      obtain ⟨hh, hl⟩ := ih w (v :: vis) q hq
      refine ⟨rfl, ?_⟩
      cases q with
      | nil => simp at hh
      | cons q0 qs =>
        rw [List.getLast?_cons_cons]
        exact hl

lemma foldl_min_mem (g : Graph) : ∀ (ps : List (List String)) (p : List String),
    (ps.foldl (fun best q =>
      if pathWeight g q < pathWeight g best then q else best) p) = p ∨
    (ps.foldl (fun best q =>
      if pathWeight g q < pathWeight g best then q else best) p) ∈ ps := by
  intro ps
  induction ps with
  | nil => intro p; exact Or.inl rfl
  | cons q ps ih =>
    intro p
    rw [List.foldl_cons]
    rcases ih (if pathWeight g q < pathWeight g p then q else p) with h | h
    · rw [h]
      split
      · exact Or.inr (List.mem_cons_self q ps)
      · exact Or.inl rfl
    · exact Or.inr (List.mem_cons_of_mem q h)

lemma minWeightPath_mem (g : Graph) (l : List (List String)) (p : List String)
    (h : minWeightPath g l = some p) : p ∈ l := by
  cases l with
  | nil => simp [minWeightPath] at h
  | cons q ps =>
    unfold minWeightPath at h
    have h' := Option.some.inj h
    rw [← h']
    rcases foldl_min_mem g ps q with h1 | h1
    · rw [h1]
      exact List.mem_cons_self q ps
    · exact List.mem_cons_of_mem q h1

/-- C5: for endpoints that are nodes of the graph and lie in the same
connected component (some simple path joins them), the route computation
returns a path starting at the source and ending at the target. -/
theorem c5_route_endpoints (g : Graph) (s t : String)
    (hs : s ∈ g.nodes) (ht : t ∈ g.nodes) (hr : simplePaths g s t ≠ []) :
    (shortest_path g s t).bind List.head? = some s ∧
    (shortest_path g s t).bind List.getLast? = some t := by
  unfold shortest_path
  rw [if_pos ⟨hs, ht⟩]
  cases hmin : minWeightPath g (simplePaths g s t) with
  | none =>
    cases hsp : simplePaths g s t with
    | nil => exact absurd hsp hr
    | cons q ps =>
      rw [hsp] at hmin
      simp [minWeightPath] at hmin
  | some p =>
    have hmem := minWeightPath_mem g _ p hmin
    unfold simplePaths at hmem
    obtain ⟨hh, hl⟩ := pathsAux_endpoints g t g.nodes.length s [] p hmem
    simp [hh, hl]

/-- Witness for C5 on the three-station example, from A to C. -/
theorem c5_route_endpoints_witness :
    (shortest_path gEx "A" "C").bind List.head? = some "A" ∧
    (shortest_path gEx "A" "C").bind List.getLast? = some "C" :=
  c5_route_endpoints gEx "A" "C" (by decide) (by decide) (by decide)

lemma pathsAux_self (g : Graph) (t : String) (vis : List String) :
    ∀ n, pathsAux g t n t vis = [[t]] := by
  intro n
  cases n <;> simp [pathsAux]

/-- C6: a route query from a station to itself returns the single-element
path with an untouched annotation state — no steps, zero time, zero
changes. -/
theorem c6_self_route (g : Graph) (s : String) (hs : s ∈ g.nodes) :
    shortest_path g s s = some [s] ∧
    annotate g [s] = some ⟨[], 0, none, none⟩ := by
  constructor
  · unfold shortest_path
    rw [if_pos ⟨hs, hs⟩]
    unfold simplePaths
    rw [pathsAux_self]
    rfl
  · rfl

/-- Witness for C6 at station A of the example graph. -/
theorem c6_self_route_witness :
    shortest_path gEx "A" "A" = some ["A"] ∧
    annotate gEx ["A"] = some ⟨[], 0, none, none⟩ :=
  c6_self_route gEx "A" (by decide)

/-- C7: a query whose source or target is not a node, or with no connecting
path, surfaces the error branch of the handler and never substitutes a
default route. -/
theorem c7_no_route (g : Graph) (s t : String)
    (h : s ∉ g.nodes ∨ t ∉ g.nodes ∨ simplePaths g s t = []) :
    getRoute g s t = Except.error noRouteMsg := by
  unfold getRoute
  have hnone : shortest_path g s t = none := by
    unfold shortest_path
    rcases h with h | h | h
    · rw [if_neg (fun hc => h hc.1)]
    · rw [if_neg (fun hc => h hc.2)]
    · by_cases hc : s ∈ g.nodes ∧ t ∈ g.nodes
      · rw [if_pos hc, h]
        rfl
      · rw [if_neg hc]
  rw [hnone]

/-- Witness for C7: the unknown station Z yields the error. -/
theorem c7_no_route_witness :
    getRoute gEx "A" "Z" = Except.error noRouteMsg :=
  c7_no_route gEx "A" "Z" (Or.inr (Or.inl (by decide)))

/-! ### C2, C3, C9, C10: the annotation walk -/

lemma rawLineOf_eq (g : Graph) (a b : String) (attr : EdgeAttr)
    (hl : lookupEdge g a b = some attr) :
    rawLineOf g a b = attr.line.getD "" := by
  simp [rawLineOf, hl]

lemma effTime_eq (g : Graph) (a b : String) (attr : EdgeAttr)
    (hl : lookupEdge g a b = some attr) :
    effTime g a b = (if attr.weight = 0 then DEFAULT_EDGE_TIME else attr.weight) := by
  simp [effTime, hl]

lemma annFold_spec (g : Graph) : ∀ (pairs : List (String × String)) (s st : AnnState),
    annFold g s pairs = some st →
    st.changes = s.changes +
      changeCountGo s.prev_line s.last_change_station (pairs.map (stepInfo g)) ∧
    st.total_time = s.total_time +
      ((pairs.map (fun p => effTime g p.1 p.2)).sum) +
      (pairs.length : ℚ) * DWELL_TIME +
      (changeCountGo s.prev_line s.last_change_station (pairs.map (stepInfo g)) : ℚ) *
        INTERCHANGE_TIME := by
  intro pairs
  induction pairs with
  | nil =>
    intro s st h
    have h' : s = st := by simpa [annFold] using h
    subst h'
    simp [changeCountGo]
  | cons p rest ih =>
    intro s st h
    have h' : (annStep g s p.1 p.2).bind (fun s1 => annFold g s1 rest) = some st := h
    cases hstep : annStep g s p.1 p.2 with
    | none =>
      rw [hstep] at h'
      simp at h'
    | some s1 =>
      rw [hstep] at h'
      have h2 : annFold g s1 rest = some st := h'
      obtain ⟨ih1, ih2⟩ := ih s1 st h2
      unfold annStep at hstep
      split at hstep
      · exact absurd hstep (by simp)
      · next attr heq =>
        have hinfo : stepInfo g p = (p.1, attr.line.getD "") := by
          rw [stepInfo, rawLineOf_eq g p.1 p.2 attr heq]
        rw [List.map_cons, hinfo]
        by_cases hc : changeCondB s.prev_line s.last_change_station p.1
            (pyNorm (attr.line.getD "")) = true
        · rw [if_pos hc] at hstep
          have hs1 := Option.some.inj hstep
          subst hs1
          rw [changeCountGo, if_pos hc]
          constructor
          · rw [ih1]
            simp [AnnState.changes, isChangeStep]
            try omega
          · rw [ih2]
            simp [AnnState.changes, isChangeStep, effTime_eq g p.1 p.2 attr heq]
            try push_cast
            try ring
            try omega
        · rw [if_neg hc] at hstep
          have hs1 := Option.some.inj hstep
          subst hs1
          rw [changeCountGo, if_neg hc]
          constructor
          · rw [ih1]
            simp [AnnState.changes, isChangeStep]
            try omega
          · rw [ih2]
            simp [AnnState.changes, isChangeStep, effTime_eq g p.1 p.2 attr heq]
            try push_cast
            try ring
            try omega

/-- C2 counterexample: on the path A-B-C whose first edge has an empty line
identifier and whose second is on line red, the identifiers of the two edges
differ, so the count claimed by the spec is 1, yet the walk records no
interchange (the falsy previous line suppresses it). -/
theorem c2_counterexample :
    (annotate gC2 pC2).map AnnState.changes = some 0 ∧
    claimChangeCount ((pC2.zip pC2.tail).map (stepInfo gC2)) = 1 := by
  constructor
  · decide
  · decide

/-- C2 amended: the number of interchange records equals the count obtained
by walking the hops in order and recording an interchange exactly when the
previous normalized (stripped, lowercased) line is non-empty, differs from
the current normalized line, and the hop starts at a station other than that
of the most recent recorded interchange. -/
theorem c2_change_count (g : Graph) (path : List String) (st : AnnState)
    (h : annotate g path = some st) :
    st.changes = changeCountGo none none ((path.zip path.tail).map (stepInfo g)) := by
  have h1 := (annFold_spec g (path.zip path.tail) initAnnState st h).1
  simpa [initAnnState, AnnState.changes] using h1

/-- Witness for C2 amended on the three-station example path. -/
theorem c2_change_count_witness :
    exSt.changes = changeCountGo none none
      ((["A", "B", "C"].zip ["A", "B", "C"].tail).map (stepInfo gEx)) :=
  c2_change_count gEx ["A", "B", "C"] exSt rfl

/-- C3 counterexample: on the spec example (edge times 5 and 3, one
interchange) the walk accumulates 5 + 0.2 + 3 + 0.2 + 1 = 9.4 minutes,
not the 5 + 3 + dwell*3 + penalty = 9.6 the claim asserts: dwell is added
once per hop (twice), not once per station (three times). -/
theorem c3_counterexample :
    shortest_path gEx "A" "C" = some ["A", "B", "C"] ∧
    (annotate gEx ["A", "B", "C"]).map AnnState.total_time = some (47/5) ∧
    (47 : ℚ)/5 ≠ 5 + 3 + DWELL_TIME * 3 + 1 * INTERCHANGE_TIME := by
  refine ⟨by decide, ?_, by norm_num [DWELL_TIME, INTERCHANGE_TIME]⟩
  have h : annotate gEx ["A", "B", "C"] = some exSt := rfl
  rw [h]
  show some exSt.total_time = some (47/5)
  rw [show exSt.total_time = 47/5 by norm_num [exSt]]

/-- C3 amended: the accumulated total time equals the sum of the effective
edge weights plus hop count times the dwell constant plus change count times
the interchange penalty (the displayed figure is its integer truncation). -/
theorem c3_total_time (g : Graph) (path : List String) (st : AnnState)
    (h : annotate g path = some st) :
    st.total_time = ((path.zip path.tail).map (fun p => effTime g p.1 p.2)).sum
      + ((path.zip path.tail).length : ℚ) * DWELL_TIME
      + (st.changes : ℚ) * INTERCHANGE_TIME := by
  obtain ⟨h1, h2⟩ := annFold_spec g (path.zip path.tail) initAnnState st h
  rw [h2, h1]
  simp [initAnnState, AnnState.changes]

/-- Witness for C3 amended on the three-station example path. -/
theorem c3_total_time_witness :
    exSt.total_time =
      (((["A", "B", "C"].zip ["A", "B", "C"].tail).map
        (fun p => effTime gEx p.1 p.2)).sum)
      + (((["A", "B", "C"].zip ["A", "B", "C"].tail).length : ℚ)) * DWELL_TIME
      + (exSt.changes : ℚ) * INTERCHANGE_TIME :=
  c3_total_time gEx ["A", "B", "C"] exSt rfl

lemma annStep_no_change (g : Graph) (s : AnnState) (c n : String)
    (st : AnnState) (attr : EdgeAttr)
    (hl : lookupEdge g c n = some attr)
    (hcond : changeCondB s.prev_line s.last_change_station c
      (pyNorm (attr.line.getD "")) = false)
    (hstep : annStep g s c n = some st) :
    st.changes = s.changes ∧
    st.total_time = s.total_time + effTime g c n + DWELL_TIME := by
  unfold annStep at hstep
  split at hstep
  · exact absurd hstep (by simp)
  · next attr2 heq2 =>
    rw [hl] at heq2
    obtain rfl := Option.some.inj heq2
    simp only [hcond, Bool.false_eq_true, if_false] at hstep
    have h' := Option.some.inj hstep
    subst h'
    constructor
    · simp [AnnState.changes, isChangeStep]
    · rw [effTime_eq g c n attr hl]

/-- C9: two consecutive edges whose line identifiers agree after stripping
whitespace and lowercasing are treated as the same line: the step records no
interchange and adds no interchange penalty. -/
theorem c9_normalized_no_change (g : Graph) (s : AnnState) (c n : String)
    (st : AnnState) (l : String)
    (hprev : s.prev_line = some (pyNorm l))
    (hsame : pyNorm (rawLineOf g c n) = pyNorm l)
    (hstep : annStep g s c n = some st) :
    st.changes = s.changes ∧
    st.total_time = s.total_time + effTime g c n + DWELL_TIME := by
  cases hl : lookupEdge g c n with
  | none =>
    unfold annStep at hstep
    rw [hl] at hstep
    exact absurd hstep (by simp)
  | some attr =>
    refine annStep_no_change g s c n st attr hl ?_ hstep
    rw [rawLineOf_eq g c n attr hl] at hsame
    rw [hprev, hsame]
    simp [changeCondB]

/-- Witness for C9: the second edge of gC9 is on line " red " while the
previous one was on "Red"; no interchange is recorded. -/
theorem c9_normalized_no_change_witness :
    st9.changes = s9.changes ∧
    st9.total_time = s9.total_time + effTime gC9 "B" "C" + DWELL_TIME :=
  c9_normalized_no_change gC9 s9 "B" "C" st9 "Red" rfl rfl rfl

/-- C10: when the walk state carries no previous line (first hop of a path)
or a previous line that normalizes to the empty string (missing or empty
line attribute on the preceding edge), the step records no interchange and
adds no penalty, whatever line the current edge carries. -/
theorem c10_missing_prev_no_change (g : Graph) (s : AnnState) (c n : String)
    (st : AnnState)
    (hprev : s.prev_line = none ∨ s.prev_line = some "")
    (hstep : annStep g s c n = some st) :
    st.changes = s.changes ∧
    st.total_time = s.total_time + effTime g c n + DWELL_TIME := by
  cases hl : lookupEdge g c n with
  | none =>
    unfold annStep at hstep
    rw [hl] at hstep
    exact absurd hstep (by simp)
  | some attr =>
    refine annStep_no_change g s c n st attr hl ?_ hstep
    rcases hprev with h | h <;> rw [h] <;> simp [changeCondB]

/-- Witness for C10: after the empty-line first edge of gC2, the hop onto
line red records no interchange. -/
theorem c10_missing_prev_no_change_witness :
    st10.changes = s10.changes ∧
    st10.total_time = s10.total_time + effTime gC2 "B" "C" + DWELL_TIME :=
  c10_missing_prev_no_change gC2 s10 "B" "C" st10 (Or.inr rfl) rfl

end DelhiMetro
